import Mathlib

/-!
Verification development for the publish-android GitHub Action.

The development shallowly embeds the publishing core of the repository:

* `src/io-helper.ts` — input validation (the userFraction range check and the
  status/userFraction consistency switch of `getInputs`);
* `src/google-apis.ts` — the publish orchestration (`uploadToPlayStore` and its
  helpers), modelled as pure functions over an oracle of remote responses that
  also produce the ordered trace of remote API calls they issue;
* `src/publish-android.ts` — the mapping from the orchestration result to the
  action outputs.

Remote transport and authentication are abstracted: a `Remote` record supplies
the response bodies and status codes each endpoint would return, and every
modelled operation returns both its result (`Except` of the thrown error
message) and the list of remote calls it performed, in order.
-/

namespace PublishAndroid

/-- Model of the validated configuration object `PublishInputs` built by
`getInputs` in `src/io-helper.ts`.  The transport fields (`authClient`,
`googleApplicationCredentials`, `createdGoogleCredentialsFile`) are omitted:
they never influence the orchestration logic.  Optional string inputs are
modelled as `String` with the empty string standing for an unset input, which
is exactly what `core.getInput` returns for an absent input. -/
structure PublishInputs where
  packageName : String
  releaseFiles : List String
  releaseName : Option String
  track : String
  inAppUpdatePriority : Option Int
  userFraction : Option ℚ
  status : String
  whatsNewDirectory : String
  mappingFile : String
  changesNotSentForReview : Bool
  existingEditId : String
  debugSymbols : String

/-- Decides whether an `Except` result is an error (a thrown exception in the
original code). -/
def excepIsError {α : Type} : Except String α → Bool
  | Except.error _ => true
  | Except.ok _ => false

/-- Value of a successful `Except` result, with a default for the error
case (used only to state results of runs known to succeed). -/
def exceptValueD {α : Type} : Except String α → α → α
  | Except.ok x, _ => x
  | Except.error _, d => d

/-- Embeds the userFraction range check of `getInputs`
(`src/io-helper.ts`): a missing value is kept as `undefined`, an
out-of-range value throws.  The parsed float is modelled as a rational. -/
def checkUserFraction (userFraction : Option ℚ) : Except String (Option ℚ) :=
  match userFraction with
  | none => Except.ok none
  | some f =>
    if f < 0 ∨ f > 1 then
      Except.error "A provided userFraction must be between 0.0 and 1.0, inclusive-inclusive"
    else Except.ok (some f)

/-- Embeds the status validation switch of `getInputs`
(`src/io-helper.ts`).  `userFraction != null` is modelled by `Option.isSome`.
Quotation marks of the original messages are elided. -/
def checkStatus (status : String) (userFraction : Option ℚ) : Except String String :=
  if status = "completed" ∨ status = "draft" then
    if userFraction.isSome then
      Except.error ("Status " ++ status ++ " does not support userFraction")
    else Except.ok status
  else if status = "halted" ∨ status = "inProgress" then
    if userFraction.isNone then
      Except.error ("Status " ++ status ++ " requires a userFraction to be set")
    else Except.ok status
  else
    Except.error "Invalid status provided! Must be one of completed, inProgress, halted, draft."

/-- Sequences the two validation blocks of `getInputs` that inspect the
configured status and rollout fraction; both run before any remote call is
made (`getInputs` performs no remote calls at all, and `run` in
`src/publish-android.ts` only calls `uploadToPlayStore` after `getInputs`
returned). -/
def checkStatusUserFraction (status : String) (userFraction : Option ℚ) : Except String String :=
  match checkUserFraction userFraction with
  | Except.error e => Except.error e
  | Except.ok f => checkStatus status f

/-- One remote Play-Store API call, as issued by `src/google-apis.ts`.  The
`trackUpdate` event records the request-body fields the claims are about
(track name, release status, stringified version codes); release name,
user fraction, priority and release notes are carried by the same request but
not recorded in the event. -/
inductive ApiCall where
  | insertEdit
  | listTracks
  | uploadApk (file : String)
  | uploadBundle (file : String)
  | uploadMapping (versionCode : Nat)
  | uploadDebugSymbols (versionCode : Nat)
  | trackUpdate (track : String) (status : String) (versionCodes : List String)
  | commitEdit
  | shareUploadApk (file : String)
  | shareUploadBundle (file : String)
  deriving DecidableEq, Repr

/-- Response body field `track` of one entry of `res.data.tracks` returned by
the list-tracks endpoint (`Schema$Track.track`, an optional string). -/
structure TrackData where
  track : Option String
  deriving DecidableEq, Repr

/-- Oracle for the remote Play-Store API responses.  Each field is the
response (status code, status text, relevant body field) the corresponding
endpoint returns; per-file endpoints are functions of the uploaded file.
An `Option` body field models a `null`/`undefined` field of the JSON body. -/
structure Remote where
  insertStatus : Nat
  insertStatusText : String
  insertId : Option String
  tracksStatus : Nat
  tracksStatusText : String
  tracks : Option (List TrackData)
  apkVersionCode : String → Option Nat
  bundleVersionCode : String → Option Nat
  shareApkUrl : String → Option String
  shareBundleUrl : String → Option String
  commitStatus : Nat
  commitStatusText : String
  commitId : Option String

/-- Result of one modelled operation: the value or thrown error message,
together with the ordered list of remote calls the operation issued. -/
abbrev Step (α : Type) : Type := Except String α × List ApiCall

/-- Sequencing of modelled operations: on error the continuation never runs
and contributes no calls; on success the traces are concatenated in order. -/
def stepBind {α β : Type} (a : Step α) (f : α → Step β) : Step β :=
  match a with
  | (Except.error e, calls) => (Except.error e, calls)
  | (Except.ok x, calls) => ((f x).1, calls ++ (f x).2)

/-- Models `String.prototype.endsWith`, the artifact classifier of
`uploadRelease` and `uploadInternalSharingRelease` (list-based so that it
evaluates on concrete file names). -/
def strEndsWith (s suff : String) : Bool := List.isSuffixOf suff.data s.data

/-- Embeds `isSuccessStatusCode` of `src/google-apis.ts`: a missing (or zero,
hence falsy) status code is not a success, otherwise success means a 2xx
status. -/
def isSuccessStatusCode (statusCode : Option Nat) : Bool :=
  match statusCode with
  | none => false
  | some c => if c = 0 then false else decide (200 ≤ c) && decide (c < 300)

/-- Embeds `getOrCreateEdit` of `src/google-apis.ts`.  A supplied (truthy,
i.e. nonempty) `existingEditId` is returned with no remote call; otherwise a
single create-edit call is issued and a non-success status or a falsy
(missing or empty) id in the response is a thrown error. -/
def getOrCreateEdit (env : Remote) (inputs : PublishInputs) : Step String :=
  if inputs.existingEditId ≠ "" then (Except.ok inputs.existingEditId, [])
  else
    if isSuccessStatusCode (some env.insertStatus) = false then
      (Except.error env.insertStatusText, [ApiCall.insertEdit])
    else
      match env.insertId with
      | none => (Except.error "New edit has no ID, cannot continue.", [ApiCall.insertEdit])
      | some newId =>
        if newId = "" then (Except.error "New edit has no ID, cannot continue.", [ApiCall.insertEdit])
        else (Except.ok newId, [ApiCall.insertEdit])

/-- Renders a JS array of optional strings the way `Array.prototype.toString`
does in the track-validation error message: elements joined with commas,
`undefined` rendered empty. -/
def jsArrayToString (xs : List (Option String)) : String :=
  String.intercalate "," (xs.map (fun o => o.getD ""))

/-- Embeds `validateSelectedTrack` of `src/google-apis.ts`: lists the tracks
of the application, throws on a non-success status, on a missing track list,
and on the requested track not being among the returned track names (the
error message naming the available tracks). -/
def validateSelectedTrack (env : Remote) (inputs : PublishInputs) : Step Unit :=
  if isSuccessStatusCode (some env.tracksStatus) = false then
    (Except.error env.tracksStatusText, [ApiCall.listTracks])
  else
    match env.tracks with
    | none => (Except.error "No tracks found, unable to validate track.", [ApiCall.listTracks])
    | some allTracks =>
      let allTrackNames := allTracks.map TrackData.track
      if (some inputs.track) ∈ allTrackNames then (Except.ok (), [ApiCall.listTracks])
      else
        (Except.error ("Track \"" ++ inputs.track ++ "\" could not be found. Available tracks are: "
            ++ jsArrayToString allTrackNames), [ApiCall.listTracks])

/-- Embeds `uploadMappingFile` of `src/google-apis.ts`, reduced to the remote
calls it issues: one deobfuscation-file upload when a mapping file is
configured (nonempty path), none otherwise. -/
def uploadMappingFile (inputs : PublishInputs) (versionCode : Nat) : List ApiCall :=
  if inputs.mappingFile.length > 0 then [ApiCall.uploadMapping versionCode] else []

/-- Embeds `uploadDebugSymbolsFile` of `src/google-apis.ts`, reduced to the
remote calls it issues: one deobfuscation-file upload when a debug-symbols
path is configured (nonempty path), none otherwise.  The payload selection
(zip of a directory versus raw file bytes) is modelled separately by
`debugSymbolsData`. -/
def uploadDebugSymbolsFile (inputs : PublishInputs) (versionCode : Nat) : List ApiCall :=
  if inputs.debugSymbols.length > 0 then [ApiCall.uploadDebugSymbols versionCode] else []

/-- Embeds `uploadRelease` of `src/google-apis.ts`: dispatch on the file-name
suffix, throw on a falsy (missing or zero) version code in the upload
response, then attach mapping file and debug symbols for the obtained version
code; any other suffix is a thrown error before any call. -/
def uploadRelease (env : Remote) (inputs : PublishInputs) (releaseFile : String) : Step Nat :=
  if strEndsWith releaseFile ".apk" then
    match env.apkVersionCode releaseFile with
    | none => (Except.error "Failed to upload APK.", [ApiCall.uploadApk releaseFile])
    | some v =>
      if v = 0 then (Except.error "Failed to upload APK.", [ApiCall.uploadApk releaseFile])
      else
        (Except.ok v,
          [ApiCall.uploadApk releaseFile] ++ uploadMappingFile inputs v
            ++ uploadDebugSymbolsFile inputs v)
  else if strEndsWith releaseFile ".aab" then
    match env.bundleVersionCode releaseFile with
    | none => (Except.error "Failed to upload bundle.", [ApiCall.uploadBundle releaseFile])
    | some v =>
      if v = 0 then (Except.error "Failed to upload bundle.", [ApiCall.uploadBundle releaseFile])
      else
        (Except.ok v,
          [ApiCall.uploadBundle releaseFile] ++ uploadMappingFile inputs v
            ++ uploadDebugSymbolsFile inputs v)
  else (Except.error (releaseFile ++ " is invalid"), [])

/-- Embeds `uploadReleaseFiles` of `src/google-apis.ts`: uploads the release
files strictly in order, pushing each version code; the first thrown error
aborts the loop. -/
def uploadReleaseFiles (env : Remote) (inputs : PublishInputs) : List String → Step (List Nat)
  | [] => (Except.ok [], [])
  | f :: rest =>
    stepBind (uploadRelease env inputs f) (fun v =>
      stepBind (uploadReleaseFiles env inputs rest) (fun l =>
        (Except.ok (v :: l), [])))

/-- Embeds the status defaulting and request-body construction of
`addReleasesToTrack` in `src/google-apis.ts`: a falsy (empty) configured
status defaults to inProgress when a user fraction is present and to
completed otherwise; the version codes sent are the nonzero ones,
stringified.  The track-update response body is only logged by the caller, so
the modelled result is `Unit`. -/
def addReleasesToTrack (inputs : PublishInputs) (versionCodes : List Nat) : Step Unit :=
  let status := if inputs.status = "" then
      (if inputs.userFraction.isSome then "inProgress" else "completed")
    else inputs.status
  (Except.ok (),
    [ApiCall.trackUpdate inputs.track status
      ((versionCodes.filter (fun x => x ≠ 0)).map (fun x => toString x))])

/-- Embeds the commit step of `uploadToPlayStore` in `src/google-apis.ts`:
one commit call; a response body with a `null`/`undefined` id is a thrown
error carrying the response status. -/
def commitEdit (env : Remote) : Step String :=
  match env.commitId with
  | none =>
    (Except.error ("Error " ++ toString env.commitStatus ++ ": " ++ env.commitStatusText),
      [ApiCall.commitEdit])
  | some cid => (Except.ok cid, [ApiCall.commitEdit])

/-- Embeds `uploadInternalSharingRelease` of `src/google-apis.ts`: dispatch
on the file-name suffix to the sharing-specific endpoint, throw on a falsy
(missing or empty) download URL, throw before any call on any other
suffix. -/
def uploadInternalSharingRelease (env : Remote) (inputs : PublishInputs) (releaseFile : String) :
    Step String :=
  if strEndsWith releaseFile ".apk" then
    match env.shareApkUrl releaseFile with
    | none => (Except.error "Uploaded file has no download URL.", [ApiCall.shareUploadApk releaseFile])
    | some url =>
      if url = "" then
        (Except.error "Uploaded file has no download URL.", [ApiCall.shareUploadApk releaseFile])
      else (Except.ok url, [ApiCall.shareUploadApk releaseFile])
  else if strEndsWith releaseFile ".aab" then
    match env.shareBundleUrl releaseFile with
    | none =>
      (Except.error "Uploaded file has no download URL.", [ApiCall.shareUploadBundle releaseFile])
    | some url =>
      if url = "" then
        (Except.error "Uploaded file has no download URL.", [ApiCall.shareUploadBundle releaseFile])
      else (Except.ok url, [ApiCall.shareUploadBundle releaseFile])
  else
    (Except.error (releaseFile ++ " is invalid (missing or invalid file extension)."), [])

/-- Embeds the internal-sharing loop of `uploadToPlayStore` in
`src/google-apis.ts`: uploads the release files strictly in order, pushing
each download URL; the first thrown error aborts the loop. -/
def uploadInternalSharing (env : Remote) (inputs : PublishInputs) : List String → Step (List String)
  | [] => (Except.ok [], [])
  | f :: rest =>
    stepBind (uploadInternalSharingRelease env inputs f) (fun url =>
      stepBind (uploadInternalSharing env inputs rest) (fun l =>
        (Except.ok (url :: l), [])))

/-- Embeds `uploadToPlayStore` of `src/google-apis.ts`: the track name
`internalsharing` routes to the direct-share loop; any other track runs
create-or-reuse edit, track validation, the upload loop, the track update and
the commit, and maps the collected version codes to Play-Store test URLs. -/
def uploadToPlayStore (env : Remote) (inputs : PublishInputs) : Step (List String) :=
  if inputs.track = "internalsharing" then
    uploadInternalSharing env inputs inputs.releaseFiles
  else
    stepBind (getOrCreateEdit env inputs) (fun _appEditId =>
      stepBind (validateSelectedTrack env inputs) (fun _ =>
        stepBind (uploadReleaseFiles env inputs inputs.releaseFiles) (fun versionCodes =>
          stepBind (addReleasesToTrack inputs versionCodes) (fun _ =>
            stepBind (commitEdit env) (fun _ =>
              (Except.ok (versionCodes.map (fun version =>
                "https://play.google.com/apps/test/" ++ inputs.packageName ++ "/"
                  ++ toString version)), []))))))

/-- Value of one action output as set by `setOutputs` in
`src/publish-android.ts`: the single download URL is a string, the URL list a
list; `none` models an `undefined` output value. -/
inductive OutValue where
  | strVal (s : String)
  | listVal (l : List String)
  deriving DecidableEq, Repr

/-- Embeds the output publication of `run` in `src/publish-android.ts`:
`setOutputs` iterates the `Outputs` enum in declaration order, setting
`internalSharingDownloadUrl` to the last element of the returned URL list
(`undefined` when the list is empty) and `internalSharingDownloadUrls` to the
whole list. -/
def runSetOutputs (urls : List String) : List (String × Option OutValue) :=
  [("internalSharingDownloadUrl",
      if h : urls.length > 0 then some (OutValue.strVal (urls.get ⟨urls.length - 1, by omega⟩))
      else none),
   ("internalSharingDownloadUrls", some (OutValue.listVal urls))]

/-- Whether a call is one of the per-artifact changeset upload endpoints. -/
def ApiCall.isArtifactUpload : ApiCall → Bool
  | ApiCall.uploadApk _ => true
  | ApiCall.uploadBundle _ => true
  | _ => false

/-- Whether a call belongs to the per-artifact upload phase (artifact,
mapping-file or debug-symbols upload). -/
def ApiCall.isUploadPhase : ApiCall → Bool
  | ApiCall.uploadApk _ => true
  | ApiCall.uploadBundle _ => true
  | ApiCall.uploadMapping _ => true
  | ApiCall.uploadDebugSymbols _ => true
  | _ => false

/-- Whether a call is a track update. -/
def ApiCall.isTrackUpdate : ApiCall → Bool
  | ApiCall.trackUpdate _ _ _ => true
  | _ => false

/-- Whether a call is an internal-sharing upload. -/
def ApiCall.isShareUpload : ApiCall → Bool
  | ApiCall.shareUploadApk _ => true
  | ApiCall.shareUploadBundle _ => true
  | _ => false

/-- Version code contained in the upload response for a release file; the
endpoint answering is selected by the `.apk` suffix first, as in
`uploadRelease`. -/
def vcOf (env : Remote) (f : String) : Option Nat :=
  if strEndsWith f ".apk" then env.apkVersionCode f else env.bundleVersionCode f

/-- Local filesystem entry: a regular file with its contents, or a directory
with its named children in listing order. -/
inductive FsEntry where
  | file (data : String)
  | dir (entries : List (String × FsEntry))
  deriving Repr

/-- Embeds `zipFileAddDirectory` of `src/google-apis.ts` over the filesystem
model.  `root` is the JSZip folder handle, modelled as the member path of the
folder (`none` models a null zip, returned unchanged).  `dirPath` is the name
of the entry below the current filesystem root and `entry` the filesystem
entry found at `path.join(rootPath, dirPath)` (the `lstatSync` /
`readFileSync` / `readdirSync` lookups are resolved to this entry by the
caller).  A file is added as a member of the current folder under its name; a
directory is recursed into through `root.folder(dirPath)`, adding a folder
level except at the root.  The result is the list of (member path, contents)
pairs added to the archive, in traversal order. -/
def zipFileAddDirectory (root : Option (List String)) (dirPath : String) (entry : FsEntry)
    (isRootRoot : Bool) : List (List String × String) :=
  match root with
  | none => []
  | some zdir =>
    match entry with
    | FsEntry.file data => [(zdir ++ [dirPath], data)]
    | FsEntry.dir entries =>
      let zipFolder := if isRootRoot then zdir else zdir ++ [dirPath]
      (entries.attach.map (fun p =>
        zipFileAddDirectory (some zipFolder) p.1.1 p.1.2 false)).flatten
termination_by sizeOf entry
decreasing_by
  simp_wf
  have h1 := List.sizeOf_lt_of_mem p.2
  rcases p with ⟨⟨name, child⟩, hmem⟩
  simp at h1 ⊢
  omega

/-- All regular files below a filesystem entry, as (relative path, contents)
pairs in traversal order: the specification of the archive contents. -/
def filesOf (entry : FsEntry) : List (List String × String) :=
  match entry with
  | FsEntry.file data => [([], data)]
  | FsEntry.dir entries =>
    (entries.attach.map (fun p => (filesOf p.1.2).map (fun q => (p.1.1 :: q.1, q.2)))).flatten
termination_by sizeOf entry
decreasing_by
  simp_wf
  have h1 := List.sizeOf_lt_of_mem p.2
  rcases p with ⟨⟨name, child⟩, hmem⟩
  simp at h1 ⊢
  omega

/-- Embeds `createDebugSymbolZipFile` of `src/google-apis.ts`: a fresh
archive filled by `zipFileAddDirectory` starting at the configured path
itself (`path.join(debugSymbolsPath, ".")` resolves to that path), with
`isRootRoot` set so the root directory adds no folder level. -/
def createDebugSymbolZipFile (entry : FsEntry) : List (List String × String) :=
  zipFileAddDirectory (some []) "." entry true

/-- Payload uploaded by `uploadDebugSymbolsFile`: either the raw bytes of a
single file or the generated archive of a directory. -/
inductive DebugPayload where
  | raw (data : String)
  | zipped (entries : List (List String × String))
  deriving Repr

/-- Embeds the payload selection of `uploadDebugSymbolsFile` in
`src/google-apis.ts`: a directory is packaged with
`createDebugSymbolZipFile`; for anything else `data` stays null after the
`isDirectory` branch and `readFileSync` supplies the raw file bytes. -/
def debugSymbolsData (entry : FsEntry) : DebugPayload :=
  match entry with
  | FsEntry.dir _ => DebugPayload.zipped (createDebugSymbolZipFile entry)
  | FsEntry.file data => DebugPayload.raw data

/-- JS word character (`[A-Za-z0-9_]`), as tested by the `\b` assertion. -/
def isWordChar (c : Char) : Bool := c.isAlphanum || c == '_'

/-- Whether the character at index i of the string is a word character;
positions outside the string count as non-word. -/
def wordAt (cs : List Char) (i : Nat) : Bool :=
  match cs.drop i with
  | [] => false
  | c :: _ => isWordChar c

/-- JS word-boundary assertion `\b` at position j of the string. -/
def boundaryAt (cs : List Char) (j : Nat) : Bool :=
  (if j = 0 then false else wordAt cs (j - 1)) != wordAt cs j

/-- The literal that both release-notes regexes begin with. -/
def whatsnewLit : List Char := "whatsnew-".data

/-- Whether that literal occurs at index i of the string. -/
def whatsnewAt (cs : List Char) (i : Nat) : Bool :=
  List.isPrefixOf whatsnewLit (cs.drop i)

/-- Character matchable by the JS `.` metacharacter without the s flag: any
character except a line terminator. -/
def dotChar (c : Char) : Bool :=
  !(c == '\n' || c == '\r' || c == Char.ofNat 0x2028 || c == Char.ofNat 0x2029)

/-- Embeds the filter test of `readLocalizedReleaseNotes` against the regex
whatsnew-((.*-.*)|(.*))\b: the group matches any run of dot-matchable
characters, so an (unanchored) match exists iff the literal occurs at some
index i and a word boundary holds at some position j at or after the end of
the literal that is reachable from it through dot-matchable characters. -/
def testWhatsnew (v : String) : Bool :=
  let cs := v.data
  (List.range (cs.length + 1)).any (fun i =>
    whatsnewAt cs i &&
    (List.range (cs.length + 1)).any (fun j =>
      decide (i + 9 ≤ j) && ((cs.drop (i + 9)).take (j - (i + 9))).all dotChar
        && boundaryAt cs j))

/-- Index of the leftmost occurrence of the literal in the string, if any. -/
def firstWhatsnewIdx (cs : List Char) : Option Nat :=
  (List.range (cs.length + 1)).find? (fun i => whatsnewAt cs i)

/-- Embeds `value.match` against the extraction regex
whatsnew-((.*-.*)|(.*)) of `readLocalizedReleaseNotes`: on a match, captured
group 1 is the maximal run of dot-matchable characters following the leftmost
occurrence of the literal (whichever alternative applies, the greedy group
extends to the first line terminator or the end of the string); the returned
match array then always has length 4. -/
def matchLang (v : String) : Option String :=
  let cs := v.data
  match firstWhatsnewIdx cs with
  | none => none
  | some i => some (String.mk ((cs.drop (i + 9)).takeWhile dotChar))

/-- One localized release note (`Schema$LocalizedText`). -/
structure LocalizedText where
  language : String
  text : String
  deriving DecidableEq, Repr

/-- Models `path.join` of the notes directory with a listing entry. -/
def joinPath (d v : String) : String := d ++ "/" ++ v

/-- Embeds `readLocalizedReleaseNotes` of `src/google-apis.ts` over a
directory model: `whatsNewDir` is the configured path (empty string models an
unset input), `readdir` the directory listing, `readFile` the file contents
keyed by joined path.  Listing entries are filtered by the test regex, the
locale is extracted with the match pattern (the length-4 check always holds
on a successful match, and `readFileSync` never returns undefined for utf-8
reads), and one (language, text) pair is pushed per surviving entry; an unset
directory yields undefined. -/
def readLocalizedReleaseNotes (whatsNewDir : String) (readdir : List String)
    (readFile : String → String) : Option (List LocalizedText) :=
  if whatsNewDir.length > 0 then
    let releaseNotes := readdir.filter testWhatsnew
    some (releaseNotes.filterMap (fun v =>
      match matchLang v with
      | some lang => some ⟨lang, readFile (joinPath whatsNewDir v)⟩
      | none => none))
  else none

/-- Claim C1 (counterexample): with configured status "foo" and no rollout
fraction, input processing rejects the request (the switch falls into the
throwing default branch), although the claim states that every combination
other than (completed/draft with fraction) and (halted/inProgress without
fraction) is accepted. -/
theorem checkStatus_rejects_unknown_status :
    excepIsError (checkStatusUserFraction "foo" none) = true ∧
    ¬ ((("foo" = "completed" ∨ "foo" = "draft") ∧ (none : Option ℚ).isSome = true) ∨
       (("foo" = "halted" ∨ "foo" = "inProgress") ∧ (none : Option ℚ).isNone = true)) := by
  constructor
  · decide
  · decide

/-- Claim C1 (amended): for a configured status s and optional rollout
fraction f with f, when present, in the range 0 to 1, `getInputs` rejects the
request before any remote call iff (s is completed or draft and f is present),
or (s is halted or inProgress and f is absent), or s is not one of the four
recognized status values (in particular when no status survives to this check);
only the four remaining valid combinations are accepted. -/
theorem checkStatusUserFraction_error_iff (s : String) (f : Option ℚ)
    (hf : ∀ x, f = some x → 0 ≤ x ∧ x ≤ 1) :
    excepIsError (checkStatusUserFraction s f) = true ↔
      (((s = "completed" ∨ s = "draft") ∧ f.isSome = true) ∨
       ((s = "halted" ∨ s = "inProgress") ∧ f.isNone = true) ∨
       ¬ (s = "completed" ∨ s = "draft" ∨ s = "halted" ∨ s = "inProgress")) := by
  have hok : checkUserFraction f = Except.ok f := by
    cases f with
    | none => rfl
    | some x =>
      have hx := hf x rfl
      have hcon : ¬ (x < 0 ∨ x > 1) := by
        push_neg
        exact hx
      simp only [checkUserFraction, if_neg hcon]
  have hred : checkStatusUserFraction s f = checkStatus s f := by
    unfold checkStatusUserFraction
    rw [hok]
  rw [hred]
  by_cases h1 : s = "completed" ∨ s = "draft"
  · have h2 : ¬ (s = "halted" ∨ s = "inProgress") := by
      rcases h1 with rfl | rfl <;> decide
    have hall : s = "completed" ∨ s = "draft" ∨ s = "halted" ∨ s = "inProgress" := by tauto
    unfold checkStatus
    rw [if_pos h1]
    cases f with
    | none => simp [excepIsError, h1, h2, hall]
    | some x => simp [excepIsError, h1, h2, hall]
  · by_cases h2 : s = "halted" ∨ s = "inProgress"
    · have hall : s = "completed" ∨ s = "draft" ∨ s = "halted" ∨ s = "inProgress" := by tauto
      unfold checkStatus
      rw [if_neg h1, if_pos h2]
      cases f with
      | none => simp [excepIsError, h1, h2, hall]
      | some x => simp [excepIsError, h1, h2, hall]
    · have hnall : ¬ (s = "completed" ∨ s = "draft" ∨ s = "halted" ∨ s = "inProgress") := by
        tauto
      unfold checkStatus
      rw [if_neg h1, if_neg h2]
      simp [excepIsError, hnall]

/-- Claim C1 (witness): the amended theorem instantiated at status inProgress
with fraction 1, an accepted combination. -/
theorem checkStatusUserFraction_error_iff_witness :
    excepIsError (checkStatusUserFraction "inProgress" (some 1)) = true ↔
      ((("inProgress" = "completed" ∨ "inProgress" = "draft") ∧ (some (1 : ℚ)).isSome = true) ∨
       (("inProgress" = "halted" ∨ "inProgress" = "inProgress") ∧ (some (1 : ℚ)).isNone = true) ∨
       ¬ ("inProgress" = "completed" ∨ "inProgress" = "draft" ∨ "inProgress" = "halted" ∨
          "inProgress" = "inProgress")) :=
  checkStatusUserFraction_error_iff "inProgress" (some 1)
    (by intro x hx; cases hx; constructor <;> norm_num)

theorem stepBind_error {α β : Type} (a : Step α) (f : α → Step β) (e : String)
    (h : a.1 = Except.error e) : stepBind a f = (Except.error e, a.2) := by
  rcases a with ⟨a1, a2⟩
  cases a1 <;> simp_all [stepBind]

theorem stepBind_ok {α β : Type} (a : Step α) (f : α → Step β) (x : α)
    (h : a.1 = Except.ok x) : stepBind a f = ((f x).1, a.2 ++ (f x).2) := by
  rcases a with ⟨a1, a2⟩
  cases a1 <;> simp_all [stepBind]

theorem getOrCreateEdit_calls (env : Remote) (inputs : PublishInputs) :
    ∀ c ∈ (getOrCreateEdit env inputs).2, c = ApiCall.insertEdit := by
  intro c
  unfold getOrCreateEdit
  repeat' split
  all_goals simp_all

theorem validateSelectedTrack_calls (env : Remote) (inputs : PublishInputs) :
    (validateSelectedTrack env inputs).2 = [ApiCall.listTracks] := by
  unfold validateSelectedTrack
  cases env.tracks <;> simp only [] <;> split_ifs <;> simp_all

theorem uploadMappingFile_calls (inputs : PublishInputs) (v : Nat) :
    ∀ c ∈ uploadMappingFile inputs v, c = ApiCall.uploadMapping v := by
  intro c hc
  unfold uploadMappingFile at hc
  split_ifs at hc <;> simp_all

theorem uploadDebugSymbolsFile_calls (inputs : PublishInputs) (v : Nat) :
    ∀ c ∈ uploadDebugSymbolsFile inputs v, c = ApiCall.uploadDebugSymbols v := by
  intro c hc
  unfold uploadDebugSymbolsFile at hc
  split_ifs at hc <;> simp_all

set_option maxHeartbeats 1000000 in
theorem uploadRelease_calls (env : Remote) (inputs : PublishInputs) (f : String) :
    ∀ c ∈ (uploadRelease env inputs f).2, c.isUploadPhase = true := by
  intro c hc
  unfold uploadRelease at hc
  split at hc
  · split at hc
    · simp at hc; subst hc; rfl
    · split at hc
      · simp at hc; subst hc; rfl
      · rcases List.mem_append.mp hc with h | h
        · rcases List.mem_append.mp h with h2 | h2
          · simp at h2; subst h2; rfl
          · rw [uploadMappingFile_calls inputs _ c h2]; rfl
        · rw [uploadDebugSymbolsFile_calls inputs _ c h]; rfl
  · split at hc
    · split at hc
      · simp at hc; subst hc; rfl
      · split at hc
        · simp at hc; subst hc; rfl
        · rcases List.mem_append.mp hc with h | h
          · rcases List.mem_append.mp h with h2 | h2
            · simp at h2; subst h2; rfl
            · rw [uploadMappingFile_calls inputs _ c h2]; rfl
          · rw [uploadDebugSymbolsFile_calls inputs _ c h]; rfl
    · simp at hc

theorem uploadInternalSharingRelease_calls (env : Remote) (inputs : PublishInputs) (f : String) :
    ∀ c ∈ (uploadInternalSharingRelease env inputs f).2, c.isShareUpload = true := by
  intro c hc
  unfold uploadInternalSharingRelease at hc
  split at hc
  · split at hc
    · simp at hc; subst hc; rfl
    · split at hc
      · simp at hc; subst hc; rfl
      · simp at hc; subst hc; rfl
  · split at hc
    · split at hc
      · simp at hc; subst hc; rfl
      · split at hc
        · simp at hc; subst hc; rfl
        · simp at hc; subst hc; rfl
    · simp at hc

theorem uploadReleaseFiles_calls (env : Remote) (inputs : PublishInputs) (files : List String) :
    ∀ c ∈ (uploadReleaseFiles env inputs files).2, c.isUploadPhase = true := by
  induction files with
  | nil => simp [uploadReleaseFiles]
  | cons f rest ih =>
    intro c hc
    rw [show uploadReleaseFiles env inputs (f :: rest)
        = stepBind (uploadRelease env inputs f) (fun v =>
            stepBind (uploadReleaseFiles env inputs rest) (fun l =>
              (Except.ok (v :: l), []))) from rfl] at hc
    cases h1 : (uploadRelease env inputs f).1 with
    | error e =>
      rw [stepBind_error _ _ e h1] at hc
      exact uploadRelease_calls env inputs f c hc
    | ok v =>
      rw [stepBind_ok _ _ v h1] at hc
      rcases List.mem_append.mp hc with h | h
      · exact uploadRelease_calls env inputs f c h
      · cases h2 : (uploadReleaseFiles env inputs rest).1 with
        | error e =>
          rw [stepBind_error _ _ e h2] at h
          exact ih c h
        | ok l =>
          rw [stepBind_ok _ _ l h2] at h
          rcases List.mem_append.mp h with h3 | h3
          · exact ih c h3
          · simp at h3

theorem uploadInternalSharing_calls (env : Remote) (inputs : PublishInputs) (files : List String) :
    ∀ c ∈ (uploadInternalSharing env inputs files).2, c.isShareUpload = true := by
  induction files with
  | nil => simp [uploadInternalSharing]
  | cons f rest ih =>
    intro c hc
    rw [show uploadInternalSharing env inputs (f :: rest)
        = stepBind (uploadInternalSharingRelease env inputs f) (fun url =>
            stepBind (uploadInternalSharing env inputs rest) (fun l =>
              (Except.ok (url :: l), []))) from rfl] at hc
    cases h1 : (uploadInternalSharingRelease env inputs f).1 with
    | error e =>
      rw [stepBind_error _ _ e h1] at hc
      exact uploadInternalSharingRelease_calls env inputs f c hc
    | ok v =>
      rw [stepBind_ok _ _ v h1] at hc
      rcases List.mem_append.mp hc with h | h
      · exact uploadInternalSharingRelease_calls env inputs f c h
      · cases h2 : (uploadInternalSharing env inputs rest).1 with
        | error e =>
          rw [stepBind_error _ _ e h2] at h
          exact ih c h
        | ok l =>
          rw [stepBind_ok _ _ l h2] at h
          rcases List.mem_append.mp h with h3 | h3
          · exact ih c h3
          · simp at h3

theorem uploadPhase_props (c : ApiCall) (h : c.isUploadPhase = true) :
    c.isTrackUpdate = false ∧ c ≠ ApiCall.commitEdit ∧ c.isShareUpload = false
      ∧ c ≠ ApiCall.insertEdit ∧ c ≠ ApiCall.listTracks := by
  cases c <;> simp_all [ApiCall.isUploadPhase, ApiCall.isTrackUpdate, ApiCall.isShareUpload]

/-- Claim C5: obtaining the edit either reuses a supplied changeset
identifier with no remote call, or issues exactly one create-edit call (no
retry) and fails fatally on a non-success status or a missing/empty
identifier in the response, returning the new identifier on success. -/
theorem getOrCreateEdit_spec (env : Remote) (inputs : PublishInputs) :
    (inputs.existingEditId ≠ "" →
      getOrCreateEdit env inputs = (Except.ok inputs.existingEditId, [])) ∧
    (inputs.existingEditId = "" →
      (getOrCreateEdit env inputs).2 = [ApiCall.insertEdit] ∧
      (isSuccessStatusCode (some env.insertStatus) = false →
        (getOrCreateEdit env inputs).1 = Except.error env.insertStatusText) ∧
      (isSuccessStatusCode (some env.insertStatus) = true →
        ((env.insertId = none ∨ env.insertId = some "") →
          (getOrCreateEdit env inputs).1 = Except.error "New edit has no ID, cannot continue.") ∧
        (∀ newId, env.insertId = some newId → newId ≠ "" →
          (getOrCreateEdit env inputs).1 = Except.ok newId))) := by
  by_cases hex : inputs.existingEditId = ""
  case neg => simp_all [getOrCreateEdit]
  case pos =>
    by_cases hsc : isSuccessStatusCode (some env.insertStatus) = false
    case pos => simp_all [getOrCreateEdit]
    case neg =>
      cases hid : env.insertId with
      | none => simp_all [getOrCreateEdit]
      | some newId =>
        by_cases hnid : newId = ""
        · simp_all [getOrCreateEdit]
        · simp_all [getOrCreateEdit]

/-- Claim C5 (witness): a run with no pre-existing identifier, a 201 response
and identifier "edit-7" returns "edit-7" after exactly one create-edit
call. -/
theorem getOrCreateEdit_spec_witness :
    (getOrCreateEdit
        { insertStatus := 201, insertStatusText := "Created", insertId := some "edit-7",
          tracksStatus := 200, tracksStatusText := "OK", tracks := none,
          apkVersionCode := fun _ => none, bundleVersionCode := fun _ => none,
          shareApkUrl := fun _ => none, shareBundleUrl := fun _ => none,
          commitStatus := 200, commitStatusText := "OK", commitId := none }
        { packageName := "com.example.app", releaseFiles := ["app.apk"], releaseName := none,
          track := "production", inAppUpdatePriority := none, userFraction := none,
          status := "completed", whatsNewDirectory := "", mappingFile := "",
          changesNotSentForReview := false, existingEditId := "", debugSymbols := "" }).1
      = Except.ok "edit-7" := by
  have h := getOrCreateEdit_spec
    { insertStatus := 201, insertStatusText := "Created", insertId := some "edit-7",
      tracksStatus := 200, tracksStatusText := "OK", tracks := none,
      apkVersionCode := fun _ => none, bundleVersionCode := fun _ => none,
      shareApkUrl := fun _ => none, shareBundleUrl := fun _ => none,
      commitStatus := 200, commitStatusText := "OK", commitId := none }
    { packageName := "com.example.app", releaseFiles := ["app.apk"], releaseName := none,
      track := "production", inAppUpdatePriority := none, userFraction := none,
      status := "completed", whatsNewDirectory := "", mappingFile := "",
      changesNotSentForReview := false, existingEditId := "", debugSymbols := "" }
  exact ((h.2 rfl).2.2 (by decide)).2 "edit-7" rfl (by decide)

theorem toDigitsCore_length_lower (b : Nat) :
    ∀ (fuel m : Nat) (l : List Char), 0 < fuel →
      l.length + 1 ≤ (Nat.toDigitsCore b fuel m l).length := by
  intro fuel
  induction fuel with
  | zero => intro m l h; omega
  | succ fuel ih =>
    intro m l _
    simp only [Nat.toDigitsCore]
    by_cases hdiv : m / b = 0
    · simp [hdiv]
    · simp only [if_neg hdiv]
      rcases Nat.eq_zero_or_pos fuel with hf | hf
      · subst hf
        simp [Nat.toDigitsCore]
      · have h2 := ih (m / b) (Nat.digitChar (m % b) :: l) hf
        simp only [List.length_cons] at h2
        omega

theorem toDigitsCore_succ (b fuel m : Nat) (l : List Char) :
    Nat.toDigitsCore b (fuel + 1) m l =
      if m / b = 0 then Nat.digitChar (m % b) :: l
      else Nat.toDigitsCore b fuel (m / b) (Nat.digitChar (m % b) :: l) := rfl

theorem natRepr_length_two {n : Nat} (hn : 10 ≤ n) : 2 ≤ (Nat.repr n).length := by
  have hdiv : ¬ (n / 10 = 0) := by
    have : 1 ≤ n / 10 := (Nat.le_div_iff_mul_le (by norm_num)).mpr (by omega)
    omega
  have h0 : 0 < n := by omega
  have hlow := toDigitsCore_length_lower 10 n (n / 10) [Nat.digitChar (n % 10)] h0
  simp only [List.length_cons, List.length_nil] at hlow
  simp only [Nat.repr, Nat.toDigits, String.length, List.asString]
  rw [toDigitsCore_succ, if_neg hdiv]
  omega

theorem natToString_eq_zero {n : Nat} (h : toString n = "0") : n = 0 := by
  by_contra hne
  rcases Nat.lt_or_ge n 10 with hlt | hge
  · interval_cases n
    · exact hne rfl
    all_goals exact absurd h (by decide)
  · have h2 := natRepr_length_two hge
    have hts : toString n = Nat.repr n := rfl
    rw [hts] at h
    rw [h] at h2
    have h3 : ("0" : String).length = 1 := rfl
    omega


/-- Claim C7: a track-update request built with no explicitly configured
status carries status inProgress when a rollout fraction is present and
completed when it is absent, and its stringified version-code list never
contains a zero value. -/
theorem addReleasesToTrack_default_status (inputs : PublishInputs) (versionCodes : List Nat)
    (h : inputs.status = "") :
    (addReleasesToTrack inputs versionCodes).2 =
      [ApiCall.trackUpdate inputs.track
        (if inputs.userFraction.isSome then "inProgress" else "completed")
        ((versionCodes.filter (fun x => x ≠ 0)).map (fun x => toString x))] ∧
    "0" ∉ (versionCodes.filter (fun x => x ≠ 0)).map (fun x => toString x) := by
  constructor
  · simp [addReleasesToTrack, h]
  · intro hmem
    rcases List.mem_map.mp hmem with ⟨v, hv, hveq⟩
    have hv2 : v ≠ 0 := by
      have := (List.mem_filter.mp hv).2
      simpa using this
    exact hv2 (natToString_eq_zero hveq)

/-- Claim C7 (witness): with no configured status, no fraction and version
codes 0 and 5, the request carries status completed and only code "5". -/
theorem addReleasesToTrack_default_status_witness :
    (addReleasesToTrack
        { packageName := "com.example.app", releaseFiles := ["app.apk"], releaseName := none,
          track := "beta", inAppUpdatePriority := none, userFraction := none,
          status := "", whatsNewDirectory := "", mappingFile := "",
          changesNotSentForReview := false, existingEditId := "", debugSymbols := "" }
        [0, 5]).2 =
      [ApiCall.trackUpdate "beta"
        (if (none : Option ℚ).isSome then "inProgress" else "completed")
        (([0, 5].filter (fun x => x ≠ 0)).map (fun x => toString x))] ∧
    "0" ∉ ([0, 5].filter (fun x => x ≠ 0)).map (fun x => toString x) :=
  addReleasesToTrack_default_status
    { packageName := "com.example.app", releaseFiles := ["app.apk"], releaseName := none,
      track := "beta", inAppUpdatePriority := none, userFraction := none,
      status := "", whatsNewDirectory := "", mappingFile := "",
      changesNotSentForReview := false, existingEditId := "", debugSymbols := "" }
    [0, 5] rfl

theorem uploadReleaseFiles_cons (env : Remote) (inputs : PublishInputs) (f : String)
    (rest : List String) :
    uploadReleaseFiles env inputs (f :: rest) =
      stepBind (uploadRelease env inputs f) (fun v =>
        stepBind (uploadReleaseFiles env inputs rest) (fun l =>
          (Except.ok (v :: l), []))) := rfl

theorem uploadInternalSharing_cons (env : Remote) (inputs : PublishInputs) (f : String)
    (rest : List String) :
    uploadInternalSharing env inputs (f :: rest) =
      stepBind (uploadInternalSharingRelease env inputs f) (fun url =>
        stepBind (uploadInternalSharing env inputs rest) (fun l =>
          (Except.ok (url :: l), []))) := rfl

theorem uploadReleaseFiles_ok (env : Remote) (inputs : PublishInputs) (files : List String)
    (h : ∀ f ∈ files, excepIsError (uploadRelease env inputs f).1 = false) :
    (uploadReleaseFiles env inputs files).1 =
      Except.ok (files.map (fun f => exceptValueD (uploadRelease env inputs f).1 0)) := by
  induction files with
  | nil => rfl
  | cons f rest ih =>
    cases h1 : (uploadRelease env inputs f).1 with
    | error e =>
      have := h f (by simp)
      rw [h1] at this
      simp [excepIsError] at this
    | ok v =>
      have hrest := ih (fun g hg => h g (List.mem_cons_of_mem f hg))
      rw [uploadReleaseFiles_cons, stepBind_ok _ _ v h1]
      have hinner := stepBind_ok (uploadReleaseFiles env inputs rest)
        (fun l => ((Except.ok (v :: l) : Except String (List Nat)), ([] : List ApiCall)))
        _ hrest
      rw [hinner]
      simp [List.map_cons, h1, exceptValueD]

theorem uploadInternalSharing_ok (env : Remote) (inputs : PublishInputs) (files : List String)
    (h : ∀ f ∈ files, excepIsError (uploadInternalSharingRelease env inputs f).1 = false) :
    (uploadInternalSharing env inputs files).1 =
      Except.ok (files.map (fun f =>
        exceptValueD (uploadInternalSharingRelease env inputs f).1 "")) := by
  induction files with
  | nil => rfl
  | cons f rest ih =>
    cases h1 : (uploadInternalSharingRelease env inputs f).1 with
    | error e =>
      have := h f (by simp)
      rw [h1] at this
      simp [excepIsError] at this
    | ok v =>
      have hrest := ih (fun g hg => h g (List.mem_cons_of_mem f hg))
      rw [uploadInternalSharing_cons, stepBind_ok _ _ v h1]
      have hinner := stepBind_ok (uploadInternalSharing env inputs rest)
        (fun l => ((Except.ok (v :: l) : Except String (List String)), ([] : List ApiCall)))
        _ hrest
      rw [hinner]
      simp [List.map_cons, h1, exceptValueD]

/-- Claim C2: on a run in which every upload succeeds, both loops return one
element per input file, in input order: the i-th returned version code (resp.
download URL) is the one the i-th file uploaded to, which in particular gives
equal lengths. -/
theorem uploadLoops_preserve_order_and_length (env : Remote) (inputs : PublishInputs)
    (files : List String) :
    ((∀ f ∈ files, excepIsError (uploadRelease env inputs f).1 = false) →
      (uploadReleaseFiles env inputs files).1 =
        Except.ok (files.map (fun f => exceptValueD (uploadRelease env inputs f).1 0))) ∧
    ((∀ f ∈ files, excepIsError (uploadInternalSharingRelease env inputs f).1 = false) →
      (uploadInternalSharing env inputs files).1 =
        Except.ok (files.map (fun f =>
          exceptValueD (uploadInternalSharingRelease env inputs f).1 ""))) :=
  ⟨uploadReleaseFiles_ok env inputs files, uploadInternalSharing_ok env inputs files⟩

/-- Claim C2 (witness): a two-file run in which every upload succeeds with
version codes 7 and 8 returns exactly those codes in input order. -/
theorem uploadLoops_preserve_order_and_length_witness :
    (uploadReleaseFiles
        { insertStatus := 200, insertStatusText := "OK", insertId := some "e1",
          tracksStatus := 200, tracksStatusText := "OK", tracks := none,
          apkVersionCode := fun _ => some 7, bundleVersionCode := fun _ => some 8,
          shareApkUrl := fun _ => none, shareBundleUrl := fun _ => none,
          commitStatus := 200, commitStatusText := "OK", commitId := none }
        { packageName := "com.example.app", releaseFiles := ["a.apk", "b.aab"],
          releaseName := none, track := "production", inAppUpdatePriority := none,
          userFraction := none, status := "completed", whatsNewDirectory := "",
          mappingFile := "", changesNotSentForReview := false, existingEditId := "",
          debugSymbols := "" }
        ["a.apk", "b.aab"]).1 = Except.ok [7, 8] := by
  have h := (uploadLoops_preserve_order_and_length
    { insertStatus := 200, insertStatusText := "OK", insertId := some "e1",
      tracksStatus := 200, tracksStatusText := "OK", tracks := none,
      apkVersionCode := fun _ => some 7, bundleVersionCode := fun _ => some 8,
      shareApkUrl := fun _ => none, shareBundleUrl := fun _ => none,
      commitStatus := 200, commitStatusText := "OK", commitId := none }
    { packageName := "com.example.app", releaseFiles := ["a.apk", "b.aab"],
      releaseName := none, track := "production", inAppUpdatePriority := none,
      userFraction := none, status := "completed", whatsNewDirectory := "",
      mappingFile := "", changesNotSentForReview := false, existingEditId := "",
      debugSymbols := "" }
    ["a.apk", "b.aab"]).1 (by decide)
  rw [h]
  rfl

theorem uploadRelease_error_of_bad_vc (env : Remote) (inputs : PublishInputs) (f : String)
    (h : vcOf env f = none ∨ vcOf env f = some 0) :
    excepIsError (uploadRelease env inputs f).1 = true := by
  unfold vcOf at h
  unfold uploadRelease
  by_cases hapk : strEndsWith f ".apk" = true
  · rw [if_pos hapk] at h
    rw [if_pos hapk]
    rcases h with h | h <;> rw [h] <;> rfl
  · rw [if_neg hapk] at h
    rw [if_neg hapk]
    by_cases haab : strEndsWith f ".aab" = true
    · rw [if_pos haab]
      rcases h with h | h <;> rw [h] <;> rfl
    · rw [if_neg haab]
      rfl

theorem uploadReleaseFiles_error (env : Remote) (inputs : PublishInputs) (files : List String)
    (h : ∃ f ∈ files, excepIsError (uploadRelease env inputs f).1 = true) :
    excepIsError (uploadReleaseFiles env inputs files).1 = true := by
  induction files with
  | nil => simp at h
  | cons f rest ih =>
    rw [uploadReleaseFiles_cons]
    cases h1 : (uploadRelease env inputs f).1 with
    | error e => rw [stepBind_error _ _ e h1]; rfl
    | ok v =>
      rw [stepBind_ok _ _ v h1]
      rcases h with ⟨g, hg, hge⟩
      rcases List.mem_cons.mp hg with rfl | hg2
      · rw [h1] at hge; simp [excepIsError] at hge
      · have hrest := ih ⟨g, hg2, hge⟩
        cases h2 : (uploadReleaseFiles env inputs rest).1 with
        | error e =>
          rw [stepBind_error _ _ e h2]
          rfl
        | ok l =>
          rw [h2] at hrest
          simp [excepIsError] at hrest

/-- Claim C3: on the changeset path, a missing or zero version code in the
upload response of any release file makes the whole run terminate with an
error while the trace contains no track-update and no commit call; in
particular a version code of 0 from the apk endpoint is the upload failure
error even though the transport call succeeded. -/
theorem badVersionCode_aborts_run (env : Remote) (inputs : PublishInputs)
    (ht : ¬ inputs.track = "internalsharing")
    (hbad : ∃ f ∈ inputs.releaseFiles, vcOf env f = none ∨ vcOf env f = some 0) :
    excepIsError (uploadToPlayStore env inputs).1 = true ∧
    (∀ c ∈ (uploadToPlayStore env inputs).2, c.isTrackUpdate = false ∧ c ≠ ApiCall.commitEdit) ∧
    (∀ f, strEndsWith f ".apk" = true → env.apkVersionCode f = some 0 →
      (uploadRelease env inputs f).1 = Except.error "Failed to upload APK.") := by
  have hlast : ∀ f, strEndsWith f ".apk" = true → env.apkVersionCode f = some 0 →
      (uploadRelease env inputs f).1 = Except.error "Failed to upload APK." := by
    intro f hf h0
    unfold uploadRelease
    rw [if_pos hf, h0]
    rfl
  have hloop : excepIsError (uploadReleaseFiles env inputs inputs.releaseFiles).1 = true := by
    rcases hbad with ⟨f, hf, hvc⟩
    exact uploadReleaseFiles_error env inputs _
      ⟨f, hf, uploadRelease_error_of_bad_vc env inputs f hvc⟩
  unfold uploadToPlayStore
  rw [if_neg ht]
  cases hedit : (getOrCreateEdit env inputs).1 with
  | error e =>
    rw [stepBind_error _ _ e hedit]
    refine ⟨rfl, ?_, hlast⟩
    intro c hc
    rw [getOrCreateEdit_calls env inputs c hc]
    exact ⟨rfl, by simp⟩
  | ok eid =>
    rw [stepBind_ok _ _ eid hedit]
    cases hval : (validateSelectedTrack env inputs).1 with
    | error e =>
      rw [stepBind_error _ _ e hval]
      refine ⟨rfl, ?_, hlast⟩
      intro c hc
      rcases List.mem_append.mp hc with h | h
      · rw [getOrCreateEdit_calls env inputs c h]
        exact ⟨rfl, by simp⟩
      · rw [validateSelectedTrack_calls env inputs] at h
        simp at h
        subst h
        exact ⟨rfl, by simp⟩
    | ok u =>
      rw [stepBind_ok _ _ u hval]
      cases hl : (uploadReleaseFiles env inputs inputs.releaseFiles).1 with
      | ok l =>
        rw [hl] at hloop
        simp [excepIsError] at hloop
      | error e =>
        rw [stepBind_error _ _ e hl]
        refine ⟨rfl, ?_, hlast⟩
        intro c hc
        rcases List.mem_append.mp hc with h | h
        · rw [getOrCreateEdit_calls env inputs c h]
          exact ⟨rfl, by simp⟩
        · rcases List.mem_append.mp h with h2 | h2
          · rw [validateSelectedTrack_calls env inputs] at h2
            simp at h2
            subst h2
            exact ⟨rfl, by simp⟩
          · have hup := uploadReleaseFiles_calls env inputs inputs.releaseFiles c h2
            have hp := uploadPhase_props c hup
            exact ⟨hp.1, hp.2.1⟩

/-- Claim C3 (witness): a single-apk run whose upload response carries
version code 0 terminates with an error and issues no track-update and no
commit call. -/
theorem badVersionCode_aborts_run_witness :
    excepIsError (uploadToPlayStore
        { insertStatus := 200, insertStatusText := "OK", insertId := some "e1",
          tracksStatus := 200, tracksStatusText := "OK",
          tracks := some [{ track := some "production" }],
          apkVersionCode := fun _ => some 0, bundleVersionCode := fun _ => none,
          shareApkUrl := fun _ => none, shareBundleUrl := fun _ => none,
          commitStatus := 200, commitStatusText := "OK", commitId := some "e1" }
        { packageName := "com.example.app", releaseFiles := ["a.apk"], releaseName := none,
          track := "production", inAppUpdatePriority := none, userFraction := none,
          status := "completed", whatsNewDirectory := "", mappingFile := "",
          changesNotSentForReview := false, existingEditId := "", debugSymbols := "" }).1
      = true ∧
    (∀ c ∈ (uploadToPlayStore
        { insertStatus := 200, insertStatusText := "OK", insertId := some "e1",
          tracksStatus := 200, tracksStatusText := "OK",
          tracks := some [{ track := some "production" }],
          apkVersionCode := fun _ => some 0, bundleVersionCode := fun _ => none,
          shareApkUrl := fun _ => none, shareBundleUrl := fun _ => none,
          commitStatus := 200, commitStatusText := "OK", commitId := some "e1" }
        { packageName := "com.example.app", releaseFiles := ["a.apk"], releaseName := none,
          track := "production", inAppUpdatePriority := none, userFraction := none,
          status := "completed", whatsNewDirectory := "", mappingFile := "",
          changesNotSentForReview := false, existingEditId := "", debugSymbols := "" }).2,
      c.isTrackUpdate = false ∧ c ≠ ApiCall.commitEdit) := by
  have h := badVersionCode_aborts_run
    { insertStatus := 200, insertStatusText := "OK", insertId := some "e1",
      tracksStatus := 200, tracksStatusText := "OK",
      tracks := some [{ track := some "production" }],
      apkVersionCode := fun _ => some 0, bundleVersionCode := fun _ => none,
      shareApkUrl := fun _ => none, shareBundleUrl := fun _ => none,
      commitStatus := 200, commitStatusText := "OK", commitId := some "e1" }
    { packageName := "com.example.app", releaseFiles := ["a.apk"], releaseName := none,
      track := "production", inAppUpdatePriority := none, userFraction := none,
      status := "completed", whatsNewDirectory := "", mappingFile := "",
      changesNotSentForReview := false, existingEditId := "", debugSymbols := "" }
    (by decide) ⟨"a.apk", by decide, Or.inr (by decide)⟩
  exact ⟨h.1, h.2.1⟩

theorem uploadInternalSharingRelease_apk (env : Remote) (inputs : PublishInputs) (f : String)
    (hapk : strEndsWith f ".apk" = true) :
    (uploadInternalSharingRelease env inputs f).2 = [ApiCall.shareUploadApk f] ∧
    (∀ url, env.shareApkUrl f = some url → ¬ url = "" →
      (uploadInternalSharingRelease env inputs f).1 = Except.ok url) ∧
    ((env.shareApkUrl f = none ∨ env.shareApkUrl f = some "") →
      (uploadInternalSharingRelease env inputs f).1
        = Except.error "Uploaded file has no download URL.") := by
  unfold uploadInternalSharingRelease
  rw [if_pos hapk]
  cases hurl : env.shareApkUrl f with
  | none =>
    refine ⟨rfl, ?_, ?_⟩
    · intro url hu
      simp at hu
    · intro _
      rfl
  | some url =>
    by_cases h0 : url = ""
    · subst h0
      refine ⟨rfl, ?_, ?_⟩
      · intro url' hu h0'
        simp at hu
        exact absurd hu.symm h0'
      · intro _
        rfl
    · refine ⟨?_, ?_, ?_⟩
      · simp [if_neg h0]
      · intro url' hu h0'
        simp at hu
        subst hu
        simp [if_neg h0]
      · intro hcon
        rcases hcon with hcon | hcon
        · simp at hcon
        · simp at hcon
          exact absurd hcon h0

/-- Claim C4: a run with track internalsharing and a single apk release file
issues exactly one internal-sharing apk upload call and nothing else (no
create-edit, list-tracks, track-update or commit call); on a response with a
download URL the result is the singleton list of that URL, and a missing or
empty download URL is the fatal no-download-URL error. -/
theorem internalsharing_single_apk_run (env : Remote) (inputs : PublishInputs) (f : String)
    (ht : inputs.track = "internalsharing")
    (hfiles : inputs.releaseFiles = [f])
    (hapk : strEndsWith f ".apk" = true) :
    (uploadToPlayStore env inputs).2 = [ApiCall.shareUploadApk f] ∧
    (∀ url, env.shareApkUrl f = some url → ¬ url = "" →
      (uploadToPlayStore env inputs).1 = Except.ok [url]) ∧
    ((env.shareApkUrl f = none ∨ env.shareApkUrl f = some "") →
      (uploadToPlayStore env inputs).1 = Except.error "Uploaded file has no download URL.") := by
  have hrel := uploadInternalSharingRelease_apk env inputs f hapk
  unfold uploadToPlayStore
  rw [if_pos ht, hfiles, uploadInternalSharing_cons]
  cases hr : (uploadInternalSharingRelease env inputs f).1 with
  | error e =>
    rw [stepBind_error _ _ e hr]
    refine ⟨hrel.1, ?_, ?_⟩
    · intro url hu h0
      have := hrel.2.1 url hu h0
      rw [hr] at this
      simp at this
    · intro hcon
      have := hrel.2.2 hcon
      rw [hr] at this
      simp at this
      subst this
      rfl
  | ok url =>
    rw [stepBind_ok _ _ url hr]
    have hnil : uploadInternalSharing env inputs [] = (Except.ok [], []) := rfl
    rw [hnil, stepBind_ok (Except.ok ([] : List String), ([] : List ApiCall)) _ ([] : List String) rfl]
    refine ⟨?_, ?_, ?_⟩
    · simp [hrel.1]
    · intro url' hu h0
      have := hrel.2.1 url' hu h0
      rw [hr] at this
      simp at this
      subst this
      rfl
    · intro hcon
      have := hrel.2.2 hcon
      rw [hr] at this
      simp at this

/-- Claim C4 (witness): a concrete internalsharing run with one apk whose
upload returns a download URL issues exactly the one sharing call and
returns that URL as a singleton list. -/
theorem internalsharing_single_apk_run_witness :
    (uploadToPlayStore
        { insertStatus := 200, insertStatusText := "OK", insertId := some "e1",
          tracksStatus := 200, tracksStatusText := "OK", tracks := none,
          apkVersionCode := fun _ => none, bundleVersionCode := fun _ => none,
          shareApkUrl := fun _ => some "https://play.google.com/share/1",
          shareBundleUrl := fun _ => none,
          commitStatus := 200, commitStatusText := "OK", commitId := none }
        { packageName := "com.example.app", releaseFiles := ["a.apk"], releaseName := none,
          track := "internalsharing", inAppUpdatePriority := none, userFraction := none,
          status := "completed", whatsNewDirectory := "", mappingFile := "",
          changesNotSentForReview := false, existingEditId := "", debugSymbols := "" }).2
      = [ApiCall.shareUploadApk "a.apk"] ∧
    (uploadToPlayStore
        { insertStatus := 200, insertStatusText := "OK", insertId := some "e1",
          tracksStatus := 200, tracksStatusText := "OK", tracks := none,
          apkVersionCode := fun _ => none, bundleVersionCode := fun _ => none,
          shareApkUrl := fun _ => some "https://play.google.com/share/1",
          shareBundleUrl := fun _ => none,
          commitStatus := 200, commitStatusText := "OK", commitId := none }
        { packageName := "com.example.app", releaseFiles := ["a.apk"], releaseName := none,
          track := "internalsharing", inAppUpdatePriority := none, userFraction := none,
          status := "completed", whatsNewDirectory := "", mappingFile := "",
          changesNotSentForReview := false, existingEditId := "", debugSymbols := "" }).1
      = Except.ok ["https://play.google.com/share/1"] := by
  have h := internalsharing_single_apk_run
    { insertStatus := 200, insertStatusText := "OK", insertId := some "e1",
      tracksStatus := 200, tracksStatusText := "OK", tracks := none,
      apkVersionCode := fun _ => none, bundleVersionCode := fun _ => none,
      shareApkUrl := fun _ => some "https://play.google.com/share/1",
      shareBundleUrl := fun _ => none,
      commitStatus := 200, commitStatusText := "OK", commitId := none }
    { packageName := "com.example.app", releaseFiles := ["a.apk"], releaseName := none,
      track := "internalsharing", inAppUpdatePriority := none, userFraction := none,
      status := "completed", whatsNewDirectory := "", mappingFile := "",
      changesNotSentForReview := false, existingEditId := "", debugSymbols := "" }
    "a.apk" rfl rfl (by decide)
  exact ⟨h.1, h.2.1 "https://play.google.com/share/1" rfl (by decide)⟩

theorem validateSelectedTrack_not_found (env : Remote) (inputs : PublishInputs)
    (allTracks : List TrackData)
    (hts : env.tracks = some allTracks)
    (hsc : isSuccessStatusCode (some env.tracksStatus) = true)
    (hnot : ¬ (some inputs.track) ∈ allTracks.map TrackData.track) :
    (validateSelectedTrack env inputs).1 =
      Except.error ("Track \"" ++ inputs.track ++ "\" could not be found. Available tracks are: "
        ++ jsArrayToString (allTracks.map TrackData.track)) := by
  unfold validateSelectedTrack
  have hsc2 : ¬ (isSuccessStatusCode (some env.tracksStatus) = false) := by simp [hsc]
  rw [if_neg hsc2, hts]
  simp [hnot]

/-- Claim C6: on the changeset path the requested track name is validated
against the fetched track list before any artifact upload (every upload call
in the trace is preceded by the list-tracks call), and when the name is not
among the fetched tracks the run fails fatally with the error naming the
available tracks, with no artifact uploaded at all. -/
theorem track_validated_before_upload (env : Remote) (inputs : PublishInputs)
    (ht : ¬ inputs.track = "internalsharing") :
    ((∀ c ∈ (uploadToPlayStore env inputs).2, c.isArtifactUpload = false) ∨
      ∃ t1 t2, (uploadToPlayStore env inputs).2 = t1 ++ ApiCall.listTracks :: t2 ∧
        ∀ c ∈ t1, c.isArtifactUpload = false) ∧
    (∀ eid, (getOrCreateEdit env inputs).1 = Except.ok eid →
      ∀ allTracks, env.tracks = some allTracks →
        isSuccessStatusCode (some env.tracksStatus) = true →
        ¬ (some inputs.track) ∈ allTracks.map TrackData.track →
        (uploadToPlayStore env inputs).1 =
          Except.error ("Track \"" ++ inputs.track
            ++ "\" could not be found. Available tracks are: "
            ++ jsArrayToString (allTracks.map TrackData.track)) ∧
        (∀ c ∈ (uploadToPlayStore env inputs).2, c.isArtifactUpload = false)) := by
  unfold uploadToPlayStore
  rw [if_neg ht]
  constructor
  · cases hedit : (getOrCreateEdit env inputs).1 with
    | error e =>
      rw [stepBind_error _ _ e hedit]
      left
      intro c hc
      rw [getOrCreateEdit_calls env inputs c hc]
      rfl
    | ok eid =>
      rw [stepBind_ok _ _ eid hedit]
      right
      cases hval : (validateSelectedTrack env inputs).1 with
      | error e =>
        rw [stepBind_error _ _ e hval]
        refine ⟨(getOrCreateEdit env inputs).2, [], ?_, ?_⟩
        · simp [validateSelectedTrack_calls env inputs]
        · intro c hc
          rw [getOrCreateEdit_calls env inputs c hc]
          rfl
      | ok u =>
        rw [stepBind_ok _ _ u hval]
        refine ⟨(getOrCreateEdit env inputs).2,
          (stepBind (uploadReleaseFiles env inputs inputs.releaseFiles) (fun versionCodes =>
            stepBind (addReleasesToTrack inputs versionCodes) (fun _ =>
              stepBind (commitEdit env) (fun _ =>
                (Except.ok (versionCodes.map (fun version =>
                  "https://play.google.com/apps/test/" ++ inputs.packageName ++ "/"
                    ++ toString version)), []))))).2, ?_, ?_⟩
        · rw [validateSelectedTrack_calls env inputs]
          simp
        · intro c hc
          rw [getOrCreateEdit_calls env inputs c hc]
          rfl
  · intro eid hedit allTracks hts hsc hnot
    have hverr := validateSelectedTrack_not_found env inputs allTracks hts hsc hnot
    rw [stepBind_ok _ _ eid hedit, stepBind_error _ _ _ hverr]
    constructor
    · rfl
    · intro c hc
      rcases List.mem_append.mp hc with h | h
      · rw [getOrCreateEdit_calls env inputs c h]
        rfl
      · rw [validateSelectedTrack_calls env inputs] at h
        simp at h
        subst h
        rfl

/-- Claim C6 (witness): requesting track "alpha" when the application has
tracks "beta" and "production" fails with the error naming both available
tracks and uploads nothing. -/
theorem track_validated_before_upload_witness :
    (uploadToPlayStore
        { insertStatus := 200, insertStatusText := "OK", insertId := some "e1",
          tracksStatus := 200, tracksStatusText := "OK",
          tracks := some [{ track := some "beta" }, { track := some "production" }],
          apkVersionCode := fun _ => some 7, bundleVersionCode := fun _ => none,
          shareApkUrl := fun _ => none, shareBundleUrl := fun _ => none,
          commitStatus := 200, commitStatusText := "OK", commitId := some "e1" }
        { packageName := "com.example.app", releaseFiles := ["a.apk"], releaseName := none,
          track := "alpha", inAppUpdatePriority := none, userFraction := none,
          status := "completed", whatsNewDirectory := "", mappingFile := "",
          changesNotSentForReview := false, existingEditId := "e0", debugSymbols := "" }).1
      = Except.error ("Track \"" ++ "alpha"
          ++ "\" could not be found. Available tracks are: "
          ++ jsArrayToString
              ([{ track := some "beta" }, { track := some "production" }].map TrackData.track)) ∧
    (∀ c ∈ (uploadToPlayStore
        { insertStatus := 200, insertStatusText := "OK", insertId := some "e1",
          tracksStatus := 200, tracksStatusText := "OK",
          tracks := some [{ track := some "beta" }, { track := some "production" }],
          apkVersionCode := fun _ => some 7, bundleVersionCode := fun _ => none,
          shareApkUrl := fun _ => none, shareBundleUrl := fun _ => none,
          commitStatus := 200, commitStatusText := "OK", commitId := some "e1" }
        { packageName := "com.example.app", releaseFiles := ["a.apk"], releaseName := none,
          track := "alpha", inAppUpdatePriority := none, userFraction := none,
          status := "completed", whatsNewDirectory := "", mappingFile := "",
          changesNotSentForReview := false, existingEditId := "e0", debugSymbols := "" }).2,
      c.isArtifactUpload = false) :=
  (track_validated_before_upload
    { insertStatus := 200, insertStatusText := "OK", insertId := some "e1",
      tracksStatus := 200, tracksStatusText := "OK",
      tracks := some [{ track := some "beta" }, { track := some "production" }],
      apkVersionCode := fun _ => some 7, bundleVersionCode := fun _ => none,
      shareApkUrl := fun _ => none, shareBundleUrl := fun _ => none,
      commitStatus := 200, commitStatusText := "OK", commitId := some "e1" }
    { packageName := "com.example.app", releaseFiles := ["a.apk"], releaseName := none,
      track := "alpha", inAppUpdatePriority := none, userFraction := none,
      status := "completed", whatsNewDirectory := "", mappingFile := "",
      changesNotSentForReview := false, existingEditId := "e0", debugSymbols := "" }
    (by decide)).2 "e0" rfl
    [{ track := some "beta" }, { track := some "production" }] rfl (by decide) (by decide)

theorem addReleasesToTrack_share_calls (inputs : PublishInputs) (vcs : List Nat) :
    ∀ c ∈ (addReleasesToTrack inputs vcs).2, c.isShareUpload = false := by
  intro c hc
  unfold addReleasesToTrack at hc
  simp at hc
  subst hc
  rfl

theorem commitEdit_calls (env : Remote) : ∀ c ∈ (commitEdit env).2, c = ApiCall.commitEdit := by
  intro c hc
  unfold commitEdit at hc
  split at hc <;> simp_all

theorem runSetOutputs_eq (urls : List String) :
    runSetOutputs urls =
      [("internalSharingDownloadUrl", urls.getLast?.map OutValue.strVal),
       ("internalSharingDownloadUrls", some (OutValue.listVal urls))] := by
  unfold runSetOutputs
  by_cases h : urls.length > 0
  · rw [dif_pos h]
    have hne : urls ≠ [] := by
      intro hnil
      subst hnil
      simp at h
    rw [List.get_length_sub_one, List.getLast?_eq_getLast urls hne]
    simp
  · rw [dif_neg h]
    have hnil : urls = [] := by
      cases urls with
      | nil => rfl
      | cons a l => simp at h
    subst hnil
    simp

/-- Claim C10: a fully successful changeset run returns, in input order, the
Play-Store test URL of each collected version code, issues no
internal-sharing upload, and the caller publishes this list under the
internal-sharing output names with the single-URL output set to the last
element. -/
theorem changeset_success_returns_test_urls (env : Remote) (inputs : PublishInputs)
    (ht : ¬ inputs.track = "internalsharing")
    (hedit : ∃ eid, (getOrCreateEdit env inputs).1 = Except.ok eid)
    (hval : (validateSelectedTrack env inputs).1 = Except.ok ())
    (hup : ∀ f ∈ inputs.releaseFiles, excepIsError (uploadRelease env inputs f).1 = false)
    (hcommit : ∃ cid, env.commitId = some cid) :
    ∃ vcs, (uploadReleaseFiles env inputs inputs.releaseFiles).1 = Except.ok vcs ∧
      (uploadToPlayStore env inputs).1 = Except.ok (vcs.map (fun version =>
        "https://play.google.com/apps/test/" ++ inputs.packageName ++ "/" ++ toString version)) ∧
      (∀ c ∈ (uploadToPlayStore env inputs).2, c.isShareUpload = false) ∧
      runSetOutputs (vcs.map (fun version =>
          "https://play.google.com/apps/test/" ++ inputs.packageName ++ "/" ++ toString version)) =
        [("internalSharingDownloadUrl",
            ((vcs.map (fun version =>
              "https://play.google.com/apps/test/" ++ inputs.packageName ++ "/"
                ++ toString version)).getLast?).map OutValue.strVal),
         ("internalSharingDownloadUrls",
            some (OutValue.listVal (vcs.map (fun version =>
              "https://play.google.com/apps/test/" ++ inputs.packageName ++ "/"
                ++ toString version))))] := by
  obtain ⟨eid, hedit⟩ := hedit
  obtain ⟨cid, hcommit⟩ := hcommit
  have hloop := uploadReleaseFiles_ok env inputs inputs.releaseFiles hup
  have haddr : (addReleasesToTrack inputs
      (inputs.releaseFiles.map (fun f => exceptValueD (uploadRelease env inputs f).1 0))).1
      = Except.ok () := rfl
  have hcomm : (commitEdit env).1 = Except.ok cid := by
    unfold commitEdit
    rw [hcommit]
  refine ⟨inputs.releaseFiles.map (fun f => exceptValueD (uploadRelease env inputs f).1 0),
    hloop, ?_, ?_, runSetOutputs_eq _⟩
  · unfold uploadToPlayStore
    rw [if_neg ht]
    simp only [stepBind_ok _ _ eid hedit, stepBind_ok _ _ () hval, stepBind_ok _ _ _ hloop,
      stepBind_ok _ _ () haddr, stepBind_ok _ _ cid hcomm]
  · unfold uploadToPlayStore
    rw [if_neg ht]
    simp only [stepBind_ok _ _ eid hedit, stepBind_ok _ _ () hval, stepBind_ok _ _ _ hloop,
      stepBind_ok _ _ () haddr, stepBind_ok _ _ cid hcomm]
    intro c hc
    rcases List.mem_append.mp hc with h | h
    · rw [getOrCreateEdit_calls env inputs c h]
      rfl
    · rcases List.mem_append.mp h with h | h
      · rw [validateSelectedTrack_calls env inputs] at h
        simp at h
        subst h
        rfl
      · rcases List.mem_append.mp h with h | h
        · exact (uploadPhase_props c (uploadReleaseFiles_calls env inputs _ c h)).2.2.1
        · rcases List.mem_append.mp h with h | h
          · exact addReleasesToTrack_share_calls inputs _ c h
          · rcases List.mem_append.mp h with h | h
            · rw [commitEdit_calls env c h]
              rfl
            · simp at h

/-- Claim C10 (witness): a concrete fully successful two-file run returns
the two test URLs in input order and publishes them under the
internal-sharing output names. -/
theorem changeset_success_returns_test_urls_witness :
    ∃ vcs, (uploadReleaseFiles
        { insertStatus := 200, insertStatusText := "OK", insertId := some "e1",
          tracksStatus := 200, tracksStatusText := "OK",
          tracks := some [{ track := some "production" }],
          apkVersionCode := fun _ => some 7, bundleVersionCode := fun _ => some 8,
          shareApkUrl := fun _ => none, shareBundleUrl := fun _ => none,
          commitStatus := 200, commitStatusText := "OK", commitId := some "e1" }
        { packageName := "com.example.app", releaseFiles := ["a.apk", "b.aab"],
          releaseName := none, track := "production", inAppUpdatePriority := none,
          userFraction := none, status := "completed", whatsNewDirectory := "",
          mappingFile := "", changesNotSentForReview := false, existingEditId := "e0",
          debugSymbols := "" }
        ["a.apk", "b.aab"]).1 = Except.ok vcs ∧
      (uploadToPlayStore
        { insertStatus := 200, insertStatusText := "OK", insertId := some "e1",
          tracksStatus := 200, tracksStatusText := "OK",
          tracks := some [{ track := some "production" }],
          apkVersionCode := fun _ => some 7, bundleVersionCode := fun _ => some 8,
          shareApkUrl := fun _ => none, shareBundleUrl := fun _ => none,
          commitStatus := 200, commitStatusText := "OK", commitId := some "e1" }
        { packageName := "com.example.app", releaseFiles := ["a.apk", "b.aab"],
          releaseName := none, track := "production", inAppUpdatePriority := none,
          userFraction := none, status := "completed", whatsNewDirectory := "",
          mappingFile := "", changesNotSentForReview := false, existingEditId := "e0",
          debugSymbols := "" }).1 = Except.ok (vcs.map (fun version =>
        "https://play.google.com/apps/test/" ++ "com.example.app" ++ "/" ++ toString version)) ∧
      (∀ c ∈ (uploadToPlayStore
        { insertStatus := 200, insertStatusText := "OK", insertId := some "e1",
          tracksStatus := 200, tracksStatusText := "OK",
          tracks := some [{ track := some "production" }],
          apkVersionCode := fun _ => some 7, bundleVersionCode := fun _ => some 8,
          shareApkUrl := fun _ => none, shareBundleUrl := fun _ => none,
          commitStatus := 200, commitStatusText := "OK", commitId := some "e1" }
        { packageName := "com.example.app", releaseFiles := ["a.apk", "b.aab"],
          releaseName := none, track := "production", inAppUpdatePriority := none,
          userFraction := none, status := "completed", whatsNewDirectory := "",
          mappingFile := "", changesNotSentForReview := false, existingEditId := "e0",
          debugSymbols := "" }).2, c.isShareUpload = false) ∧
      runSetOutputs (vcs.map (fun version =>
          "https://play.google.com/apps/test/" ++ "com.example.app" ++ "/" ++ toString version)) =
        [("internalSharingDownloadUrl",
            ((vcs.map (fun version =>
              "https://play.google.com/apps/test/" ++ "com.example.app" ++ "/"
                ++ toString version)).getLast?).map OutValue.strVal),
         ("internalSharingDownloadUrls",
            some (OutValue.listVal (vcs.map (fun version =>
              "https://play.google.com/apps/test/" ++ "com.example.app" ++ "/"
                ++ toString version))))] :=
  changeset_success_returns_test_urls
    { insertStatus := 200, insertStatusText := "OK", insertId := some "e1",
      tracksStatus := 200, tracksStatusText := "OK",
      tracks := some [{ track := some "production" }],
      apkVersionCode := fun _ => some 7, bundleVersionCode := fun _ => some 8,
      shareApkUrl := fun _ => none, shareBundleUrl := fun _ => none,
      commitStatus := 200, commitStatusText := "OK", commitId := some "e1" }
    { packageName := "com.example.app", releaseFiles := ["a.apk", "b.aab"],
      releaseName := none, track := "production", inAppUpdatePriority := none,
      userFraction := none, status := "completed", whatsNewDirectory := "",
      mappingFile := "", changesNotSentForReview := false, existingEditId := "e0",
      debugSymbols := "" }
    (by decide) ⟨"e0", rfl⟩ rfl (by decide) ⟨"e1", rfl⟩

theorem zipFileAddDirectory_sub : ∀ (n : Nat) (e : FsEntry), sizeOf e ≤ n →
    ∀ (zdir : List String) (name : String),
      zipFileAddDirectory (some zdir) name e false =
        (filesOf e).map (fun q => (zdir ++ name :: q.1, q.2)) := by
  intro n
  induction n with
  | zero =>
    intro e he
    cases e <;> simp at he
  | succ n ih =>
    intro e he zdir name
    cases e with
    | file data => simp [zipFileAddDirectory, filesOf]
    | dir entries =>
      have hsize : ∀ p : {x // x ∈ entries}, sizeOf p.1.2 ≤ n := by
        intro p
        have h1 := List.sizeOf_lt_of_mem p.2
        simp at he
        rcases p with ⟨⟨a, b⟩, hmem⟩
        simp at h1 ⊢
        omega
      simp only [zipFileAddDirectory, filesOf]
      simp only [Bool.false_eq_true, if_false]
      rw [List.map_flatten, List.map_map]
      congr 1
      apply List.map_congr_left
      intro p hp
      rw [ih p.1.2 (hsize p) (zdir ++ [name]) p.1.1]
      simp only [Function.comp_apply, List.map_map]
      apply List.map_congr_left
      intro q hq
      simp

theorem createDebugSymbolZipFile_dir (entries : List (String × FsEntry)) :
    createDebugSymbolZipFile (FsEntry.dir entries) = filesOf (FsEntry.dir entries) := by
  unfold createDebugSymbolZipFile
  simp only [zipFileAddDirectory, filesOf]
  simp only [if_pos]
  congr 1
  apply List.map_congr_left
  intro p hp
  rw [zipFileAddDirectory_sub (sizeOf p.1.2) p.1.2 le_rfl [] p.1.1]
  simp

/-- Claim C8: the diagnostic bundle packager archives every regular file of
a directory at its path relative to that directory, the root introducing no
extra folder level — for the directory holding a.txt and sub/b.txt the
member paths are exactly a.txt and sub/b.txt — and a single-file
debug-symbols path is not archived: the raw file bytes are used. -/
theorem debugSymbols_zip_members :
    (∀ da db : String,
      debugSymbolsData (FsEntry.dir [("a.txt", FsEntry.file da),
          ("sub", FsEntry.dir [("b.txt", FsEntry.file db)])]) =
        DebugPayload.zipped [(["a.txt"], da), (["sub", "b.txt"], db)]) ∧
    (∀ entries, createDebugSymbolZipFile (FsEntry.dir entries) = filesOf (FsEntry.dir entries)) ∧
    (∀ data, debugSymbolsData (FsEntry.file data) = DebugPayload.raw data) := by
  refine ⟨?_, createDebugSymbolZipFile_dir, fun data => rfl⟩
  intro da db
  unfold debugSymbolsData
  rw [createDebugSymbolZipFile_dir]
  simp [filesOf]

/-- Claim C9: for a notes directory listing whatsnew-en-US and whatsnew-fr
the loader returns exactly the two entries pairing locales en-US and fr with
each file's full text; an empty listing yields an empty list, an unset
directory yields an absent result, and a listing entry not matching the
whatsnew naming convention is ignored without error. -/
theorem readLocalizedReleaseNotes_spec :
    (∀ readFile : String → String,
      readLocalizedReleaseNotes "notes" ["whatsnew-en-US", "whatsnew-fr"] readFile =
        some [{ language := "en-US", text := readFile "notes/whatsnew-en-US" },
              { language := "fr", text := readFile "notes/whatsnew-fr" }]) ∧
    (∀ readFile : String → String, readLocalizedReleaseNotes "notes" [] readFile = some []) ∧
    (∀ names readFile, readLocalizedReleaseNotes "" names readFile = none) ∧
    (∀ d names readFile v, testWhatsnew v = false →
      readLocalizedReleaseNotes d (v :: names) readFile =
        readLocalizedReleaseNotes d names readFile) := by
  refine ⟨?_, ?_, ?_, ?_⟩
  · intro readFile
    rfl
  · intro readFile
    rfl
  · intro names readFile
    rfl
  · intro d names readFile v hv
    unfold readLocalizedReleaseNotes
    by_cases hd : d.length > 0
    · rw [if_pos hd, if_pos hd]
      simp [List.filter_cons, hv]
    · rw [if_neg hd, if_neg hd]

/-- Claim C9 (witness): a file named readme.txt in the notes directory is
ignored: the result is the same as for the listing without it. -/
theorem readLocalizedReleaseNotes_spec_witness :
    readLocalizedReleaseNotes "notes" ["readme.txt", "whatsnew-fr"] (fun _ => "text") =
      readLocalizedReleaseNotes "notes" ["whatsnew-fr"] (fun _ => "text") :=
  readLocalizedReleaseNotes_spec.2.2.2 "notes" ["whatsnew-fr"] (fun _ => "text") "readme.txt"
    (by decide)

end PublishAndroid
